import Mathlib

set_option maxRecDepth 20000

/-!
Verification of the context-to-structured-edit protocol of the document
editing agent (src/server/claude_agent.py): the response decoder
`_parse_response`, the prompt formatter `_format_prompt_with_context` /
`process` default filling, and the `cleanup` connection shell.

Python dicts produced by `json.loads` are modelled as association lists
with last-duplicate-wins insertion; Python truthiness is modelled by
`Agent.truthy`.  Machine-resource limits (recursion depth of the C
scanner) are outside the model.  Lone surrogate escapes (`\uD800` not
followed by a low surrogate), which CPython's decoder turns into lone
surrogate code units, are not representable in Lean `String` and are
mapped to a parse failure; no claim exercises them.
-/

namespace Agent

/-- JSON values as produced by Python `json.loads`.  Integer literals
become `jnum`; literals with a fraction or exponent part become `jfloat`
carrying the literal text (their numeric value is never inspected by the
agent code, only their truthiness); the Python extensions `NaN`,
`Infinity`, `-Infinity` become `jnan` / `jinf`. -/
inductive JsonVal where
  | jnull : JsonVal
  | jbool : Bool → JsonVal
  | jnum : Int → JsonVal
  | jfloat : String → JsonVal
  | jnan : JsonVal
  | jinf : Bool → JsonVal
  | jstr : String → JsonVal
  | jarr : List JsonVal → JsonVal
  | jobj : List (String × JsonVal) → JsonVal

/-- Decimal value of a digit list. -/
def digitsVal (l : List Char) : Nat := l.foldl (fun a c => a * 10 + (c.toNat - 48)) 0

/-- Decompose a float literal `-? int (. frac)? ([eE] sign? digits)?` into
`(D, E)` with exact value `± D * 10 ^ E` (`D` is the integer formed by all
mantissa digits, `E` the written exponent minus the fraction length). -/
def floatParts (l : List Char) : Nat × Int :=
  let l1 := match l with
    | '-' :: r => r
    | _ => l
  let ip := l1.takeWhile Char.isDigit
  let r1 := l1.drop ip.length
  let fr : List Char := match r1 with
    | '.' :: r2 => r2.takeWhile Char.isDigit
    | _ => []
  let r2 := r1.drop (if fr.isEmpty then 0 else fr.length + 1)
  let ex : Int := match r2 with
    | e :: r3 =>
      if e = 'e' || e = 'E' then
        match r3 with
        | '-' :: r4 => -(Int.ofNat (digitsVal (r4.takeWhile Char.isDigit)))
        | '+' :: r4 => Int.ofNat (digitsVal (r4.takeWhile Char.isDigit))
        | _ => Int.ofNat (digitsVal (r3.takeWhile Char.isDigit))
      else 0
    | [] => 0
  (digitsVal (ip ++ fr), ex - Int.ofNat fr.length)

/-- Python truthiness of a float literal, i.e. `bool(float(lit))` with
`float` the correctly rounded conversion to an IEEE-754 double (CPython
strtod).  The result is falsy iff the double is `±0.0`: with exact value
`± D * 10 ^ E`, that happens iff `D = 0` or the magnitude is at most
`2 ^ (-1075)` — the midpoint between `0.0` and the smallest subnormal
`2 ^ (-1074)`; the tie rounds to the even mantissa, which is zero.  So
`1e-400` underflows to falsy `0.0` while `3e-324` rounds to the smallest
subnormal and is truthy.  Decided by the exact integer comparison
`10 ^ (-E) < D * 2 ^ 1075`. -/
def floatTruthy (lit : String) : Bool :=
  let p := floatParts lit.data
  if p.1 = 0 then false
  else if 0 ≤ p.2 then true
  else 10 ^ (-p.2).toNat < p.1 * 2 ^ 1075

/-- Python truthiness of a JSON value: `None`, `False`, `0`, `0.0`, `""`,
`[]`, `{}` are falsy, everything else truthy. -/
def truthy : JsonVal → Bool
  | JsonVal.jnull => false
  | JsonVal.jbool b => b
  | JsonVal.jnum n => !(n == 0)
  | JsonVal.jfloat lit => floatTruthy lit
  | JsonVal.jnan => true
  | JsonVal.jinf _ => true
  | JsonVal.jstr s => !s.data.isEmpty
  | JsonVal.jarr xs => !xs.isEmpty
  | JsonVal.jobj kvs => !kvs.isEmpty

/-- Association-list lookup, modelling Python `d[k]` / `k in d` on the
dicts built below (keys are unique by construction of `insertKV`). -/
def kvsGet : List (String × JsonVal) → String → Option JsonVal
  | [], _ => none
  | (k, v) :: rest, key => if k = key then some v else kvsGet rest key

/-- Python dict assignment `d[k] = v`: replaces the value at an existing
key (keeping its position) or appends a fresh key. -/
def insertKV : List (String × JsonVal) → String → JsonVal → List (String × JsonVal)
  | [], k, v => [(k, v)]
  | (k0, v0) :: rest, k, v =>
    if k0 = k then (k0, v) :: rest else (k0, v0) :: insertKV rest k v

/-- Whitespace stripped by Python `str.strip()` (Unicode whitespace). -/
def pyIsSpace (c : Char) : Bool :=
  c = ' ' || c = '\t' || c = '\n' || c = '\x0b' || c = '\x0c' || c = '\x0d' ||
  c = '\x1c' || c = '\x1d' || c = '\x1e' || c = '\x1f' || c = '\x85' || c = '\xa0' ||
  c = '\u1680' || ('\u2000' ≤ c && c ≤ '\u200a') || c = '\u2028' || c = '\u2029' ||
  c = '\u202f' || c = '\u205f' || c = '\u3000'

/-- Python `str.strip()`. -/
def pyStrip (l : List Char) : List Char :=
  ((l.dropWhile pyIsSpace).reverse.dropWhile pyIsSpace).reverse

/-- Whitespace accepted between tokens by the JSON grammar. -/
def jsonWsChar (c : Char) : Bool :=
  c = ' ' || c = '\t' || c = '\n' || c = '\x0d'

/-- Skip inter-token JSON whitespace. -/
def skipWs (l : List Char) : List Char := l.dropWhile jsonWsChar

/-- Hexadecimal digit value. -/
def hexVal (c : Char) : Option Nat :=
  if '0' ≤ c ∧ c ≤ '9' then some (c.toNat - 48)
  else if 'a' ≤ c ∧ c ≤ 'f' then some (c.toNat - 87)
  else if 'A' ≤ c ∧ c ≤ 'F' then some (c.toNat - 55)
  else none

/-- One step of JSON string-literal decoding, mirroring CPython
`scanstring` in strict mode.  Returns `some (none, rest)` at the closing
quote, `some (some c, rest)` after decoding one character (a literal
character at or above 0x20, one of the eight named escapes, or a `\uXXXX`
escape with surrogate-pair combination), and `none` on a literal control
character, a bad escape, or a lone surrogate. -/
def unescStep : List Char → Option (Option Char × List Char)
  | [] => none
  | c :: rest =>
    if c = '"' then some (none, rest)
    else if c = '\\' then
      match rest with
      | [] => none
      | e :: r2 =>
        if e = '"' then some (some '"', r2)
        else if e = '\\' then some (some '\\', r2)
        else if e = '/' then some (some '/', r2)
        else if e = 'b' then some (some '\x08', r2)
        else if e = 'f' then some (some '\x0c', r2)
        else if e = 'n' then some (some '\n', r2)
        else if e = 'r' then some (some '\x0d', r2)
        else if e = 't' then some (some '\t', r2)
        else if e = 'u' then
          match r2 with
          | h1 :: h2 :: h3 :: h4 :: r3 =>
            match hexVal h1, hexVal h2, hexVal h3, hexVal h4 with
            | some a, some b, some c2, some d =>
              let code := ((a * 16 + b) * 16 + c2) * 16 + d
              if 55296 ≤ code ∧ code ≤ 56319 then
                match r3 with
                | '\\' :: 'u' :: g1 :: g2 :: g3 :: g4 :: r4 =>
                  match hexVal g1, hexVal g2, hexVal g3, hexVal g4 with
                  | some a2, some b2, some c3, some d2 =>
                    let code2 := ((a2 * 16 + b2) * 16 + c3) * 16 + d2
                    if 56320 ≤ code2 ∧ code2 ≤ 57343 then
                      some (some (Char.ofNat (65536 + (code - 55296) * 1024 + (code2 - 56320))), r4)
                    else none
                  | _, _, _, _ => none
                | _ => none
              else if 56320 ≤ code ∧ code ≤ 57343 then none
              else some (some (Char.ofNat code), r3)
            | _, _, _, _ => none
          | _ => none
        else none
    else if c.toNat < 32 then none
    else some (some c, rest)

/-- Iterate `unescStep` until the closing quote.  Each step consumes at
least one input character, so the fuel passed by `parseStringBody` can
never run out. -/
def parseStringLoop : Nat → List Char → Option (List Char × List Char)
  | 0, _ => none
  | fuel + 1, l =>
    match unescStep l with
    | none => none
    | some (none, r) => some ([], r)
    | some (some c, r) => (parseStringLoop fuel r).map (fun p => (c :: p.1, p.2))

/-- Body of a JSON string literal (input starts after the opening quote);
returns the decoded characters and the input after the closing quote. -/
def parseStringBody (l : List Char) : Option (List Char × List Char) :=
  parseStringLoop (l.length + 1) l

/-- JSON number token, mirroring CPython's `NUMBER_RE`
`(-?(?:0|[1-9]\d+|[1-9]))(\.\d+)?([eE][-+]?\d+)?`: the integer part stops
at a leading zero, fraction and exponent groups are optional and are not
consumed when malformed.  Plain integers give `jnum`; a fraction or
exponent part gives `jfloat` carrying the matched literal. -/
def parseNumberCore (l : List Char) : Option (JsonVal × List Char) :=
  let neg : Bool := match l with
    | '-' :: _ => true
    | _ => false
  let l1 : List Char := if neg then l.drop 1 else l
  match l1 with
  | [] => none
  | c :: _ =>
    if !c.isDigit then none
    else
      let ip : List Char := if c = '0' then ['0'] else l1.takeWhile Char.isDigit
      let r1 := l1.drop ip.length
      let fr : List Char :=
        match r1 with
        | '.' :: r2 =>
          let ds := r2.takeWhile Char.isDigit
          if ds.isEmpty then [] else '.' :: ds
        | _ => []
      let r2 := r1.drop fr.length
      let ex : List Char :=
        match r2 with
        | e :: r3 =>
          if e = 'e' || e = 'E' then
            match r3 with
            | s :: r4 =>
              if s = '+' || s = '-' then
                let ds := r4.takeWhile Char.isDigit
                if ds.isEmpty then [] else e :: s :: ds
              else
                let ds := r3.takeWhile Char.isDigit
                if ds.isEmpty then [] else e :: ds
            | [] => []
          else []
        | [] => []
      let r3 := r2.drop ex.length
      if fr.isEmpty && ex.isEmpty then
        some (JsonVal.jnum (if neg then -(Int.ofNat (digitsVal ip)) else Int.ofNat (digitsVal ip)), r3)
      else
        some (JsonVal.jfloat (String.mk ((if neg then ['-'] else []) ++ ip ++ fr ++ ex)), r3)

/-- Match a literal character sequence, returning the rest. -/
def matchLit : List Char → List Char → Option (List Char)
  | [], l => some l
  | _ :: _, [] => none
  | p :: ps, c :: cs => if c = p then matchLit ps cs else none

mutual

/-- One JSON value, mirroring CPython `scan_once`.  `fuel` only bounds
recursion depth; `jsonLoadsL` supplies more fuel than any successful
parse can consume. -/
def parseValue : Nat → List Char → Option (JsonVal × List Char)
  | 0, _ => none
  | fuel + 1, l =>
    match l with
    | [] => none
    | c :: rest =>
      if c = '"' then
        (parseStringBody rest).map (fun p => (JsonVal.jstr (String.mk p.1), p.2))
      else if c = '\x7b' then
        match skipWs rest with
        | '\x7d' :: r => some (JsonVal.jobj [], r)
        | l1 => (parseMembers fuel l1 []).map (fun p => (JsonVal.jobj p.1, p.2))
      else if c = '[' then
        match skipWs rest with
        | ']' :: r => some (JsonVal.jarr [], r)
        | l1 => (parseElems fuel l1 []).map (fun p => (JsonVal.jarr p.1, p.2))
      else if c = 't' then (matchLit ['r', 'u', 'e'] rest).map (fun r => (JsonVal.jbool true, r))
      else if c = 'f' then (matchLit ['a', 'l', 's', 'e'] rest).map (fun r => (JsonVal.jbool false, r))
      else if c = 'n' then (matchLit ['u', 'l', 'l'] rest).map (fun r => (JsonVal.jnull, r))
      else if c = 'N' then (matchLit ['a', 'N'] rest).map (fun r => (JsonVal.jnan, r))
      else if c = 'I' then
        (matchLit ['n', 'f', 'i', 'n', 'i', 't', 'y'] rest).map (fun r => (JsonVal.jinf false, r))
      else if c = '-' then
        match rest with
        | 'I' :: r2 =>
          (matchLit ['n', 'f', 'i', 'n', 'i', 't', 'y'] r2).map (fun r => (JsonVal.jinf true, r))
        | _ => parseNumberCore l
      else if c.isDigit then parseNumberCore l
      else none

/-- Members of a JSON object after `{` and whitespace, positioned at the
opening quote of a key; mirrors CPython `JSONObject`. -/
def parseMembers : Nat → List Char → List (String × JsonVal) →
    Option (List (String × JsonVal) × List Char)
  | 0, _, _ => none
  | fuel + 1, l, acc =>
    match l with
    | '"' :: r =>
      match parseStringBody r with
      | none => none
      | some (key, r2) =>
        match skipWs r2 with
        | ':' :: r3 =>
          match parseValue fuel (skipWs r3) with
          | none => none
          | some (v, r4) =>
            match skipWs r4 with
            | ',' :: r5 => parseMembers fuel (skipWs r5) (insertKV acc (String.mk key) v)
            | '\x7d' :: r5 => some (insertKV acc (String.mk key) v, r5)
            | _ => none
        | _ => none
    | _ => none

/-- Elements of a JSON array after `[` and whitespace; mirrors CPython
`JSONArray`. -/
def parseElems : Nat → List Char → List JsonVal → Option (List JsonVal × List Char)
  | 0, _, _ => none
  | fuel + 1, l, acc =>
    match parseValue fuel l with
    | none => none
    | some (v, r) =>
      match skipWs r with
      | ',' :: r2 => parseElems fuel (skipWs r2) (acc ++ [v])
      | ']' :: r2 => some (acc ++ [v], r2)
      | _ => none

end

/-- Python `json.loads`: skip leading whitespace, parse one value, skip
trailing whitespace, and fail on extra data.  The fuel `2 * length + 2`
exceeds the recursion depth of any successful parse (every pair of
nested frames consumes at least one input character). -/
def jsonLoadsL (l : List Char) : Option JsonVal :=
  match parseValue (2 * l.length + 2) (skipWs l) with
  | some (v, r) => if skipWs r = [] then some v else none
  | none => none

/-- Match three backticks, returning the rest. -/
def isTicks : List Char → Option (List Char)
  | c1 :: c2 :: c3 :: r =>
    if c1 = '\x60' ∧ c2 = '\x60' ∧ c3 = '\x60' then some r else none
  | _ => none

/-- Tail of the fenced-block pattern after the group: `\s*` (maximal, since
a backtick is not whitespace) then three backticks. -/
def tailTicks (l : List Char) : Option (List Char) :=
  isTicks (l.dropWhile pyIsSpace)

/-- Lazy scan for the group of `(\{.*?\})\s*` followed by three backticks:
`acc` holds the group content so far (reversed); the first closing brace
whose tail matches terminates the group, mirroring the non-greedy `.*?`
with `re.DOTALL`.  Returns the group (with braces) and the rest after the
closing fence. -/
def scanGroup : List Char → List Char → Option (List Char × List Char)
  | _, [] => none
  | acc, c :: r =>
    if c = '\x7d' then
      match tailTicks r with
      | some rest => some ('\x7b' :: (acc.reverse ++ ['\x7d']), rest)
      | none => scanGroup (c :: acc) r
    else scanGroup (c :: acc) r

/-- Try to match the whole pattern ```` ```(?:json)?\s*(\{.*?\})\s*``` ````
at the start of `l` (the optional `json` tag must follow the opening fence
immediately, else the regex alternative without it fails on the `j`). -/
def fenceAt (l : List Char) : Option (List Char × List Char) :=
  match isTicks l with
  | none => none
  | some r1 =>
    let r2 := match matchLit ['j', 's', 'o', 'n'] r1 with
      | some r => r
      | none => r1
    match r2.dropWhile pyIsSpace with
    | '\x7b' :: r4 => scanGroup [] r4
    | _ => none

/-- Python `re.findall` of the fenced-block pattern: scan left to right,
taking non-overlapping matches and continuing after each match end. -/
def findFenced : Nat → List Char → List (List Char)
  | 0, _ => []
  | _, [] => []
  | fuel + 1, c :: rest =>
    match fenceAt (c :: rest) with
    | some (grp, after) => grp :: findFenced fuel after
    | none => findFenced fuel rest

/-- Strategy 2 loop body: `json.loads` each block in order, first parse
success wins (the loop breaks on success even for a falsy value). -/
def firstParsed : List (List Char) → Option JsonVal
  | [] => none
  | b :: bs =>
    match jsonLoadsL b with
    | some v => some v
    | none => firstParsed bs

/-- The literal `"conversationMessage"` (with quotes) required inside the
strategy-3 inline object. -/
def keyLit : List Char := '"' :: ("conversationMessage".data ++ ['"'])

/-- Decide whether `pat` is a prefix of the text. -/
def isPre : List Char → List Char → Bool
  | [], _ => true
  | _ :: _, [] => false
  | p :: ps, c :: cs => p = c && isPre ps cs

/-- Substring test. -/
def containsSub : List Char → List Char → Bool
  | [], pat => isPre pat []
  | c :: rest, pat => isPre pat (c :: rest) || containsSub rest pat

/-- Python `re.search(r'\{[^{}]*"conversationMessage"[^{}]*\}', ...)`: the
leftmost opening brace whose following brace-free segment ends at a
closing brace and contains the literal key.  Returns the matched
substring. -/
def inlineObj : List Char → Option (List Char)
  | [] => none
  | c :: rest =>
    if c = '\x7b' then
      let seg := rest.takeWhile (fun x => !(x = '\x7b' || x = '\x7d'))
      match rest.drop seg.length with
      | '\x7d' :: _ =>
        if containsSub seg keyLit then some ('\x7b' :: (seg ++ ['\x7d']))
        else inlineObj rest
      | _ => inlineObj rest
    else inlineObj rest

/-- Python truthiness of the `json_response` variable (`None` is falsy). -/
def optTruthy : Option JsonVal → Bool
  | none => false
  | some v => truthy v

/-- The three-tier extraction of `_parse_response` (lines 256-284): whole
trimmed parse, then fenced blocks, then the inline-object heuristic; a
later tier runs only when the current `json_response` is falsy, and a
failed tier leaves the previous value in place. -/
def pipeline (l : List Char) : Option JsonVal :=
  let r1 := jsonLoadsL (pyStrip l)
  let r2 := if optTruthy r1 then r1 else
    match firstParsed (findFenced (l.length + 1) l) with
    | some v => some v
    | none => r1
  if optTruthy r2 then r2 else
    match inlineObj l with
    | some cand =>
      match jsonLoadsL cand with
      | some v => some v
      | none => r2
    | none => r2

/-- The guard `if json_response and isinstance(json_response, dict)`
(line 287): the parsed value is used only when truthy and a mapping. -/
def usableKvs : Option JsonVal → Option (List (String × JsonVal))
  | some (JsonVal.jobj kvs) => if truthy (JsonVal.jobj kvs) then some kvs else none
  | _ => none

/-- Fixed error sentence of the final fallback (line 311). -/
def errFallback : String := "I encountered an error processing your request."

/-- Projection of a parsed mapping into the result dict (lines 288-298):
`conversationMessage` with default `""`; `documentUpdate` and
`updateRange` each included iff the key exists and its value is truthy. -/
def projectResult (kvs : List (String × JsonVal)) : List (String × JsonVal) :=
  ("conversationMessage", (kvsGet kvs "conversationMessage").getD (JsonVal.jstr "")) ::
    ((match kvsGet kvs "documentUpdate" with
      | some v => if truthy v then [("documentUpdate", v)] else []
      | none => []) ++
     (match kvsGet kvs "updateRange" with
      | some v => if truthy v then [("updateRange", v)] else []
      | none => []))

/-- `_parse_response` on the raw character list: usable parse projected,
otherwise `{"conversationMessage": rawText.strip() or <error sentence>}`
(lines 305-312).  The Python `context` parameter is unused in the body. -/
def parseResponseL (l : List Char) : List (String × JsonVal) :=
  match usableKvs (pipeline l) with
  | some kvs => projectResult kvs
  | none =>
    [("conversationMessage",
      JsonVal.jstr (if (pyStrip l).isEmpty then errFallback else String.mk (pyStrip l)))]

/-- `_parse_response` (claude_agent.py lines 245-312). -/
def parseResponse (s : String) : List (String × JsonVal) := parseResponseL s.data

/-- Hexadecimal digit character (lower case). -/
def hexDigitChar (n : Nat) : Char :=
  if n < 10 then Char.ofNat (48 + n) else Char.ofNat (87 + n)

/-- Modelled from the spec: JSON string escaping for the `serialize`
function of the round-trip property (the repository never serializes an
EditResult itself).  Quote and backslash get two-character escapes,
control characters a `\u00XX` escape, everything else is literal. -/
def escChar (c : Char) : List Char :=
  if c = '"' then ['\\', '"']
  else if c = '\\' then ['\\', '\\']
  else if c.toNat < 32 then
    ['\\', 'u', '0', '0', hexDigitChar (c.toNat / 16), hexDigitChar (c.toNat % 16)]
  else [c]

/-- Escape every character of a string body. -/
def escChars : List Char → List Char
  | [] => []
  | c :: r => escChar c ++ escChars r

/-- A JSON string literal with quotes. -/
def strLit (l : List Char) : List Char := '"' :: (escChars l ++ ['"'])

/-- Modelled from the spec: the JSON serialization of
`{"conversationMessage": m, "documentUpdate": u, "updateRange": r}`. -/
def serializeEditL (m u r : List Char) : List Char :=
  '\x7b' :: (strLit "conversationMessage".data ++ ':' :: strLit m ++ ',' ::
             strLit "documentUpdate".data ++ ':' :: strLit u ++ ',' ::
             strLit "updateRange".data ++ ':' :: strLit r ++ ['\x7d'])

/-- Modelled from the spec: `serialize` at `String` type. -/
def serializeEdit (m u r : String) : String :=
  String.mk (serializeEditL m.data u.data r.data)

/-- One conversation-history entry: a Python dict read with
`msg.get('role', 'unknown')` and `msg.get('content', '')`; `none` models
an absent key. -/
structure HistMsg where
  role : Option String
  content : Option String

/-- The caller-supplied context mapping of `process`; `none` models an
absent key, which `process` fills in with `setdefault`. -/
structure EditingContext where
  documentContent : Option String
  referredText : Option String
  referredAddress : Option String
  conversationHistory : Option (List HistMsg)
  systemInstructions : Option String

/-- The five `context.setdefault(...)` calls of `process` (lines 129-133),
which mutate the caller's mapping in place; `instr` is the agent's loaded
`self.system_instructions`.  The returned context is the state of the
caller's mapping after the call. -/
def setdefaults (instr : String) (c : EditingContext) : EditingContext :=
  { documentContent := some (c.documentContent.getD "")
    referredText := some (c.referredText.getD "")
    referredAddress := some (c.referredAddress.getD "0:0")
    conversationHistory := some (c.conversationHistory.getD [])
    systemInstructions := some (c.systemInstructions.getD instr) }

/-- A context after default filling, with every field present, as read by
`_format_prompt_with_context` via `context[...]`. -/
structure FullContext where
  documentContent : String
  referredText : String
  referredAddress : String
  conversationHistory : List HistMsg
  systemInstructions : String

/-- View of a default-filled context (every field of `setdefaults` output
is `some`, so the `getD` defaults never fire on the `process` path). -/
def asFull (c : EditingContext) : FullContext :=
  { documentContent := c.documentContent.getD ""
    referredText := c.referredText.getD ""
    referredAddress := c.referredAddress.getD "0:0"
    conversationHistory := c.conversationHistory.getD []
    systemInstructions := c.systemInstructions.getD "" }

/-- Fixed head of a rendered history line (line 228): `[i] role: `. -/
def histHead (n : Nat) (m : HistMsg) : List Char :=
  '[' :: ((Nat.repr n).data ++ ']' :: ' ' :: ((m.role.getD "unknown").data ++ [':', ' ']))

/-- One rendered history line (line 228):
`[i+1] role: content[:100]` plus `...` when the content exceeds 100
characters. -/
def histLineL (n : Nat) (m : HistMsg) : List Char :=
  histHead n m ++ ((m.content.getD "").data.take 100 ++
    (if 100 < (m.content.getD "").data.length then ['.', '.', '.'] else []))

/-- The history loop `for i, msg in enumerate(...)` starting at index
`i`. -/
def histLinesFrom (i : Nat) : List HistMsg → List (List Char)
  | [] => []
  | m :: ms => histLineL (i + 1) m :: histLinesFrom (i + 1) ms

/-- Newline join, mirroring `'\n'.join(parts)`. -/
def sjoin : List (List Char) → List Char
  | [] => []
  | [x] => x
  | x :: y :: xs => x ++ '\n' :: sjoin (y :: xs)

/-- The `parts` list built by `_format_prompt_with_context`
(lines 196-241). -/
def promptPartsL (prompt : String) (c : FullContext) : List (List Char) :=
  ["=== SYSTEM INSTRUCTIONS ===".data, c.systemInstructions.data, "".data] ++
  ["=== DOCUMENT CONTENT ===".data] ++
  (if c.documentContent.data.isEmpty then ["(No document content)".data]
   else [("Full Document (" ++ Nat.repr c.documentContent.data.length ++ " chars):").data,
         c.documentContent.data]) ++
  ["".data] ++
  ["=== REFERRED TEXT ===".data, ("Referred Address: " ++ c.referredAddress).data] ++
  (if c.referredText.data.isEmpty then ["(No referred text)".data]
   else [("Referred Text (" ++ Nat.repr c.referredText.data.length ++ " chars):").data,
         c.referredText.data]) ++
  ["".data] ++
  ["=== CONVERSATION HISTORY ===".data] ++
  (if c.conversationHistory.isEmpty then ["(No previous conversation)".data]
   else histLinesFrom 0 c.conversationHistory) ++
  ["".data] ++
  ["=== USER REQUEST ===".data, prompt.data, "".data] ++
  ["=== YOUR RESPONSE ===".data,
   "Respond with valid JSON only (no markdown, no code blocks):".data,
   "\x7b\"conversationMessage\": \"...\", \"documentUpdate\": \"...\", \"updateRange\": \"...\"\x7d".data]

/-- `_format_prompt_with_context` (lines 185-243). -/
def formatPromptL (prompt : String) (c : FullContext) : List Char :=
  sjoin (promptPartsL prompt c)

/-- The deterministic part of `process` (lines 125-136): fill the caller's
context with defaults in place, then format the prompt.  Returns the
formatted prompt and the caller's mapping as the call leaves it. -/
def process (instr prompt : String) (c : EditingContext) : String × EditingContext :=
  (String.mk (formatPromptL prompt (asFull (setdefaults instr c))), setdefaults instr c)

/-- `cleanup` (lines 314-327) as a transition on the `_connected` flag.
`disconnectRaises` models whether the external `client.disconnect()` call
raises; when it does, the `except` branch only logs, so `_connected`
keeps its value.  Result: (new `_connected`, whether an exception escapes
to the caller — always `false`, the body catches everything). -/
def cleanup (connected : Bool) (disconnectRaises : Bool) : Bool × Bool :=
  if connected then
    (if disconnectRaises then (true, false) else (false, false))
  else (connected, false)

/-- The given marker strings occur in the text in order, disjointly. -/
def inOrder : List Char → List (List Char) → Prop
  | _, [] => True
  | s, m :: ms => ∃ pre post, s = pre ++ m ++ post ∧ inOrder post ms

/-- Whether a JSON value is a string. -/
def isStr : JsonVal → Bool
  | JsonVal.jstr _ => true
  | _ => false

/-- A 101-character content used as concrete witness input. -/
def witContent : String := "aaaaaaaaaaaaaaaaaaaaaaaaaaaaaaaaaaaaaaaaaaaaaaaaaaaaaaaaaaaaaaaaaaaaaaaaaaaaaaaaaaaaaaaaaaaaaaaaaaaab"

/-- Concrete history message for the C8 witness. -/
def witMsg : HistMsg := ⟨some "user", some witContent⟩

/-- Concrete context for the C8 witness. -/
def witCtx : EditingContext := ⟨none, none, none, some [witMsg], none⟩

/-! ## Lemmas about string-literal decoding and the serializer -/

theorem hexVal_hexDigitChar : ∀ n, n < 16 → hexVal (hexDigitChar n) = some n := by decide

theorem unescStep_plain (c : Char) (b : List Char) (hq : ¬ c = '"') (hb : ¬ c = '\\')
    (hc : ¬ c.toNat < 32) : unescStep (c :: b) = some (some c, b) := by
  show (if c = '"' then some (none, b)
    else if c = '\\' then
      match b with
      | [] => none
      | e :: r2 =>
        if e = '"' then some (some '"', r2)
        else if e = '\\' then some (some '\\', r2)
        else if e = '/' then some (some '/', r2)
        else if e = 'b' then some (some '\x08', r2)
        else if e = 'f' then some (some '\x0c', r2)
        else if e = 'n' then some (some '\n', r2)
        else if e = 'r' then some (some '\x0d', r2)
        else if e = 't' then some (some '\t', r2)
        else if e = 'u' then
          match r2 with
          | h1 :: h2 :: h3 :: h4 :: r3 =>
            match hexVal h1, hexVal h2, hexVal h3, hexVal h4 with
            | some a, some b, some c2, some d =>
              let code := ((a * 16 + b) * 16 + c2) * 16 + d
              if 55296 ≤ code ∧ code ≤ 56319 then
                match r3 with
                | '\\' :: 'u' :: g1 :: g2 :: g3 :: g4 :: r4 =>
                  match hexVal g1, hexVal g2, hexVal g3, hexVal g4 with
                  | some a2, some b2, some c3, some d2 =>
                    let code2 := ((a2 * 16 + b2) * 16 + c3) * 16 + d2
                    if 56320 ≤ code2 ∧ code2 ≤ 57343 then
                      some (some (Char.ofNat (65536 + (code - 55296) * 1024 + (code2 - 56320))), r4)
                    else none
                  | _, _, _, _ => none
                | _ => none
              else if 56320 ≤ code ∧ code ≤ 57343 then none
              else some (some (Char.ofNat code), r3)
            | _, _, _, _ => none
          | _ => none
        else none
    else if c.toNat < 32 then none
    else some (some c, b)) = some (some c, b)
  rw [if_neg hq, if_neg hb, if_neg hc]

theorem unescStep_u00 (d1 d2 : Char) (n1 n2 : Nat) (b : List Char)
    (h1 : hexVal d1 = some n1) (h2 : hexVal d2 = some n2) (hn1 : n1 < 16) (hn2 : n2 < 16) :
    unescStep ('\\' :: 'u' :: '0' :: '0' :: d1 :: d2 :: b) =
      some (some (Char.ofNat (n1 * 16 + n2)), b) := by
  show (match hexVal '0', hexVal '0', hexVal d1, hexVal d2 with
    | some a, some b2, some c2, some d =>
      let code := ((a * 16 + b2) * 16 + c2) * 16 + d
      if 55296 ≤ code ∧ code ≤ 56319 then
        match b with
        | '\\' :: 'u' :: g1 :: g2 :: g3 :: g4 :: r4 =>
          match hexVal g1, hexVal g2, hexVal g3, hexVal g4 with
          | some a2, some b3, some c3, some d2 =>
            let code2 := ((a2 * 16 + b3) * 16 + c3) * 16 + d2
            if 56320 ≤ code2 ∧ code2 ≤ 57343 then
              some (some (Char.ofNat (65536 + (code - 55296) * 1024 + (code2 - 56320))), r4)
            else none
          | _, _, _, _ => none
        | _ => none
      else if 56320 ≤ code ∧ code ≤ 57343 then none
      else some (some (Char.ofNat code), b)
    | _, _, _, _ => none) = some (some (Char.ofNat (n1 * 16 + n2)), b)
  rw [h1, h2]
  show (let code := ((0 * 16 + 0) * 16 + n1) * 16 + n2
    if 55296 ≤ code ∧ code ≤ 56319 then
      match b with
      | '\\' :: 'u' :: g1 :: g2 :: g3 :: g4 :: r4 =>
        match hexVal g1, hexVal g2, hexVal g3, hexVal g4 with
        | some a2, some b3, some c3, some d2 =>
          let code2 := ((a2 * 16 + b3) * 16 + c3) * 16 + d2
          if 56320 ≤ code2 ∧ code2 ≤ 57343 then
            some (some (Char.ofNat (65536 + (code - 55296) * 1024 + (code2 - 56320))), r4)
          else none
        | _, _, _, _ => none
      | _ => none
    else if 56320 ≤ code ∧ code ≤ 57343 then none
    else some (some (Char.ofNat code), b)) = some (some (Char.ofNat (n1 * 16 + n2)), b)
  have e1 : ((0 * 16 + 0) * 16 + n1) * 16 + n2 = n1 * 16 + n2 := by ring
  simp only [e1]
  rw [if_neg (by omega), if_neg (by omega)]

theorem parseStringLoop_step (f : Nat) (l r : List Char) (ch : Char)
    (h : unescStep l = some (some ch, r)) :
    parseStringLoop (f + 1) l = (parseStringLoop f r).map (fun p => (ch :: p.1, p.2)) := by
  rw [show parseStringLoop (f + 1) l =
    (match unescStep l with
      | none => none
      | some (none, r) => some ([], r)
      | some (some c, r) => (parseStringLoop f r).map (fun p => (c :: p.1, p.2))) from rfl, h]

theorem parseStringLoop_esc (s : List Char) : ∀ (fuel : Nat) (rest : List Char),
    s.length < fuel → parseStringLoop fuel (escChars s ++ ('"' :: rest)) = some (s, rest) := by
  induction s with
  | nil =>
    intro fuel rest h
    match fuel, h with
    | f + 1, _ => rfl
  | cons c s2 ih =>
    intro fuel rest h
    match fuel, h with
    | f + 1, h =>
    have hf : s2.length < f := by
      have : (c :: s2).length = s2.length + 1 := rfl
      omega
    by_cases hq : c = '"'
    · subst hq
      have e : escChars ('"' :: s2) ++ ('"' :: rest) =
          '\\' :: '"' :: (escChars s2 ++ ('"' :: rest)) := by
        simp [escChars, escChar, List.append_assoc]
      rw [e, parseStringLoop_step f ('\\' :: '"' :: (escChars s2 ++ ('"' :: rest)))
        (escChars s2 ++ ('"' :: rest)) '"' rfl, ih f rest hf]
      rfl
    · by_cases hb : c = '\\'
      · subst hb
        have e : escChars ('\\' :: s2) ++ ('"' :: rest) =
            '\\' :: '\\' :: (escChars s2 ++ ('"' :: rest)) := by
          simp [escChars, escChar, List.append_assoc]
        rw [e, parseStringLoop_step f ('\\' :: '\\' :: (escChars s2 ++ ('"' :: rest)))
          (escChars s2 ++ ('"' :: rest)) '\\' rfl, ih f rest hf]
        rfl
      · by_cases hc : c.toNat < 32
        · have e : escChars (c :: s2) ++ ('"' :: rest) =
              '\\' :: 'u' :: '0' :: '0' :: hexDigitChar (c.toNat / 16) ::
                hexDigitChar (c.toNat % 16) :: (escChars s2 ++ ('"' :: rest)) := by
            simp only [escChars, escChar, if_neg hq, if_neg hb, if_pos hc]
            simp [List.append_assoc]
          have hd1 : c.toNat / 16 < 16 := by omega
          have hd2 : c.toNat % 16 < 16 := Nat.mod_lt _ (by norm_num)
          have hu := unescStep_u00 (hexDigitChar (c.toNat / 16)) (hexDigitChar (c.toNat % 16))
            (c.toNat / 16) (c.toNat % 16) (escChars s2 ++ ('"' :: rest))
            (hexVal_hexDigitChar _ hd1) (hexVal_hexDigitChar _ hd2) hd1 hd2
          have hcode : c.toNat / 16 * 16 + c.toNat % 16 = c.toNat := by omega
          rw [hcode, Char.ofNat_toNat] at hu
          rw [e, parseStringLoop_step f _ _ c hu, ih f rest hf]
          rfl
        · have e : escChars (c :: s2) ++ ('"' :: rest) =
              c :: (escChars s2 ++ ('"' :: rest)) := by
            simp only [escChars, escChar, if_neg hq, if_neg hb, if_neg hc]
            simp
          rw [e, parseStringLoop_step f _ _ c (unescStep_plain c _ hq hb hc), ih f rest hf]
          rfl

/-- Length of an escaped string is at least the raw length. -/
theorem escChars_length_ge (s : List Char) : s.length ≤ (escChars s).length := by
  induction s with
  | nil => simp [escChars]
  | cons c s2 ih =>
    have : 1 ≤ (escChar c).length := by
      unfold escChar
      split
      · simp
      · split
        · simp
        · split <;> simp
    simp only [escChars, List.length_append, List.length_cons]
    omega

theorem parseStringBody_esc (s rest : List Char) :
    parseStringBody (escChars s ++ ('"' :: rest)) = some (s, rest) := by
  unfold parseStringBody
  apply parseStringLoop_esc
  have h1 := escChars_length_ge s
  simp only [List.length_append, List.length_cons]
  omega

theorem skipWs_cons (c : Char) (l : List Char) (h : jsonWsChar c = false) :
    skipWs (c :: l) = c :: l := by
  simp [skipWs, List.dropWhile_cons, h]

theorem parseValue_strLit (f : Nat) (s tail : List Char) :
    parseValue (f + 1) (strLit s ++ tail) = some (JsonVal.jstr (String.mk s), tail) := by
  have e : strLit s ++ tail = '"' :: (escChars s ++ ('"' :: tail)) := by
    simp [strLit]
  rw [e]
  rw [show parseValue (f + 1) ('"' :: (escChars s ++ ('"' :: tail))) =
    (parseStringBody (escChars s ++ ('"' :: tail))).map
      (fun p => (JsonVal.jstr (String.mk p.1), p.2)) from rfl]
  rw [parseStringBody_esc]
  rfl

theorem parseMembers_step (f : Nat) (key b r2 : List Char) (acc : List (String × JsonVal))
    (hk : parseStringBody b = some (key, r2)) :
    parseMembers (f + 1) ('"' :: b) acc =
      (match skipWs r2 with
        | ':' :: r3 =>
          match parseValue f (skipWs r3) with
          | none => none
          | some (v, r4) =>
            match skipWs r4 with
            | ',' :: r5 => parseMembers f (skipWs r5) (insertKV acc (String.mk key) v)
            | '\x7d' :: r5 => some (insertKV acc (String.mk key) v, r5)
            | _ => none
        | _ => none) := by
  rw [show parseMembers (f + 1) ('"' :: b) acc =
    (match parseStringBody b with
      | none => none
      | some (key, r2) =>
        match skipWs r2 with
        | ':' :: r3 =>
          match parseValue f (skipWs r3) with
          | none => none
          | some (v, r4) =>
            match skipWs r4 with
            | ',' :: r5 => parseMembers f (skipWs r5) (insertKV acc (String.mk key) v)
            | '\x7d' :: r5 => some (insertKV acc (String.mk key) v, r5)
            | _ => none
        | _ => none) from rfl, hk]

theorem skipWs_strLit (s tail : List Char) : skipWs (strLit s ++ tail) = strLit s ++ tail := by
  have e : strLit s ++ tail = '"' :: (escChars s ++ ('"' :: tail)) := by
    simp [strLit]
  rw [e, skipWs_cons _ _ (by decide)]

theorem parseMembers_memberComma (f : Nat) (k v rest2 : List Char)
    (acc : List (String × JsonVal)) :
    parseMembers (f + 2) (strLit k ++ (':' :: (strLit v ++ (',' :: rest2)))) acc =
      parseMembers (f + 1) (skipWs rest2)
        (insertKV acc (String.mk k) (JsonVal.jstr (String.mk v))) := by
  have e : strLit k ++ (':' :: (strLit v ++ (',' :: rest2))) =
      '"' :: (escChars k ++ ('"' :: (':' :: (strLit v ++ ',' :: rest2)))) := by
    simp [strLit]
  rw [e, parseMembers_step (f + 1) k _ (':' :: (strLit v ++ ',' :: rest2)) acc
    (parseStringBody_esc k _)]
  rw [skipWs_cons ':' _ (by decide)]
  show (match parseValue (f + 1) (skipWs (strLit v ++ ',' :: rest2)) with
      | none => none
      | some (v2, r4) =>
        match skipWs r4 with
        | ',' :: r5 => parseMembers (f + 1) (skipWs r5) (insertKV acc (String.mk k) v2)
        | '\x7d' :: r5 => some (insertKV acc (String.mk k) v2, r5)
        | _ => none) = _
  rw [skipWs_strLit, parseValue_strLit f v (',' :: rest2)]
  show (match skipWs (',' :: rest2) with
      | ',' :: r5 =>
        parseMembers (f + 1) (skipWs r5) (insertKV acc (String.mk k) (JsonVal.jstr (String.mk v)))
      | '\x7d' :: r5 =>
        some (insertKV acc (String.mk k) (JsonVal.jstr (String.mk v)), r5)
      | _ => none) = _
  rw [skipWs_cons ',' _ (by decide)]
  rfl

theorem parseMembers_memberClose (f : Nat) (k v rest2 : List Char)
    (acc : List (String × JsonVal)) :
    parseMembers (f + 2) (strLit k ++ (':' :: (strLit v ++ ('\x7d' :: rest2)))) acc =
      some (insertKV acc (String.mk k) (JsonVal.jstr (String.mk v)), rest2) := by
  have e : strLit k ++ (':' :: (strLit v ++ ('\x7d' :: rest2))) =
      '"' :: (escChars k ++ ('"' :: (':' :: (strLit v ++ '\x7d' :: rest2)))) := by
    simp [strLit]
  rw [e, parseMembers_step (f + 1) k _ (':' :: (strLit v ++ '\x7d' :: rest2)) acc
    (parseStringBody_esc k _)]
  rw [skipWs_cons ':' _ (by decide)]
  show (match parseValue (f + 1) (skipWs (strLit v ++ '\x7d' :: rest2)) with
      | none => none
      | some (v2, r4) =>
        match skipWs r4 with
        | ',' :: r5 => parseMembers (f + 1) (skipWs r5) (insertKV acc (String.mk k) v2)
        | '\x7d' :: r5 => some (insertKV acc (String.mk k) v2, r5)
        | _ => none) = _
  rw [skipWs_strLit, parseValue_strLit f v ('\x7d' :: rest2)]
  show (match skipWs ('\x7d' :: rest2) with
      | ',' :: r5 =>
        parseMembers (f + 1) (skipWs r5) (insertKV acc (String.mk k) (JsonVal.jstr (String.mk v)))
      | '\x7d' :: r5 =>
        some (insertKV acc (String.mk k) (JsonVal.jstr (String.mk v)), r5)
      | _ => none) = _
  rw [skipWs_cons '\x7d' _ (by decide)]
  rfl

theorem parseMembers_serialize (f : Nat) (m u r : List Char) :
    parseMembers (f + 4)
      (strLit "conversationMessage".data ++ (':' :: (strLit m ++ (',' :: (strLit "documentUpdate".data ++ (':' :: (strLit u ++ (',' :: (strLit "updateRange".data ++ (':' :: (strLit r ++ ['\x7d']))))))))))) [] =
      some ([("conversationMessage", JsonVal.jstr (String.mk m)),
             ("documentUpdate", JsonVal.jstr (String.mk u)),
             ("updateRange", JsonVal.jstr (String.mk r))], []) := by
  rw [show f + 4 = f + 2 + 2 from rfl]
  rw [parseMembers_memberComma (f + 2) "conversationMessage".data m _ []]
  rw [skipWs_strLit]
  rw [show f + 2 + 1 = f + 1 + 2 from rfl]
  rw [parseMembers_memberComma (f + 1) "documentUpdate".data u _ _]
  rw [skipWs_strLit]
  rw [show f + 1 + 1 = f + 2 from rfl]
  rw [show (strLit "updateRange".data ++ (':' :: (strLit r ++ ['\x7d'])) : List Char) =
    strLit "updateRange".data ++ (':' :: (strLit r ++ ('\x7d' :: []))) from rfl]
  rw [parseMembers_memberClose f "updateRange".data r [] _]
  rfl

theorem serializeEditL_eq (m u r : List Char) :
    serializeEditL m u r =
      '\x7b' :: (strLit "conversationMessage".data ++ (':' :: (strLit m ++ (',' :: (strLit "documentUpdate".data ++ (':' :: (strLit u ++ (',' :: (strLit "updateRange".data ++ (':' :: (strLit r ++ ['\x7d']))))))))))) := by
  simp [serializeEditL, List.append_assoc]

theorem serializeEditL_len (m u r : List Char) : 2 ≤ (serializeEditL m u r).length := by
  simp [serializeEditL, strLit, List.length_append]

theorem parseValue_serialize (f : Nat) (m u r : List Char) :
    parseValue (f + 5) (serializeEditL m u r) =
      some (JsonVal.jobj [("conversationMessage", JsonVal.jstr (String.mk m)),
             ("documentUpdate", JsonVal.jstr (String.mk u)),
             ("updateRange", JsonVal.jstr (String.mk r))], []) := by
  rw [serializeEditL_eq]
  rw [show parseValue (f + 5) ('\x7b' :: (strLit "conversationMessage".data ++ (':' :: (strLit m ++ (',' :: (strLit "documentUpdate".data ++ (':' :: (strLit u ++ (',' :: (strLit "updateRange".data ++ (':' :: (strLit r ++ ['\x7d'])))))))))))) =
    (match skipWs (strLit "conversationMessage".data ++ (':' :: (strLit m ++ (',' :: (strLit "documentUpdate".data ++ (':' :: (strLit u ++ (',' :: (strLit "updateRange".data ++ (':' :: (strLit r ++ ['\x7d']))))))))))) with
      | '\x7d' :: r2 => some (JsonVal.jobj [], r2)
      | l1 => (parseMembers (f + 4) l1 []).map (fun p => (JsonVal.jobj p.1, p.2))) from rfl]
  rw [skipWs_strLit]
  show (parseMembers (f + 4) (strLit "conversationMessage".data ++ (':' :: (strLit m ++ (',' :: (strLit "documentUpdate".data ++ (':' :: (strLit u ++ (',' :: (strLit "updateRange".data ++ (':' :: (strLit r ++ ['\x7d']))))))))))) []).map (fun p => (JsonVal.jobj p.1, p.2)) = _
  rw [parseMembers_serialize f m u r]
  rfl

theorem jsonLoadsL_serialize (m u r : List Char) :
    jsonLoadsL (serializeEditL m u r) =
      some (JsonVal.jobj [("conversationMessage", JsonVal.jstr (String.mk m)),
             ("documentUpdate", JsonVal.jstr (String.mk u)),
             ("updateRange", JsonVal.jstr (String.mk r))]) := by
  unfold jsonLoadsL
  have hskip : skipWs (serializeEditL m u r) = serializeEditL m u r := by
    rw [serializeEditL_eq]
    exact skipWs_cons _ _ (by decide)
  rw [hskip]
  obtain ⟨g, hg⟩ : ∃ g, 2 * (serializeEditL m u r).length + 2 = g + 5 :=
    ⟨2 * (serializeEditL m u r).length - 3, by have := serializeEditL_len m u r; omega⟩
  rw [hg, parseValue_serialize g m u r]
  rfl

theorem pyStrip_wrap (a b : Char) (mid : List Char) (ha : pyIsSpace a = false)
    (hb : pyIsSpace b = false) : pyStrip (a :: (mid ++ [b])) = a :: (mid ++ [b]) := by
  unfold pyStrip
  rw [List.dropWhile_cons]
  simp only [ha, Bool.false_eq_true, if_false]
  rw [show (a :: (mid ++ [b])).reverse = b :: (mid.reverse ++ [a]) by simp]
  rw [List.dropWhile_cons]
  simp only [hb, Bool.false_eq_true, if_false]
  simp

theorem pyStrip_serialize (m u r : List Char) :
    pyStrip (serializeEditL m u r) = serializeEditL m u r := by
  have e2 : serializeEditL m u r =
      '\x7b' :: ((strLit "conversationMessage".data ++ ':' :: strLit m ++ ',' ::
        strLit "documentUpdate".data ++ ':' :: strLit u ++ ',' ::
        strLit "updateRange".data ++ ':' :: strLit r) ++ ['\x7d']) := by
    simp [serializeEditL, List.append_assoc]
  rw [e2]
  exact pyStrip_wrap _ _ _ (by decide) (by decide)

/-! ## Decoder helper lemmas -/

theorem pipeline_tier1 (l : List Char) (v : JsonVal)
    (h1 : jsonLoadsL (pyStrip l) = some v) (h2 : truthy v = true) :
    pipeline l = some v := by
  simp only [pipeline, h1, optTruthy, h2, if_true]

theorem parseResponse_obj (s : String) (kvs : List (String × JsonVal))
    (h : jsonLoadsL (pyStrip s.data) = some (JsonVal.jobj kvs)) (hne : kvs ≠ []) :
    parseResponse s = projectResult kvs := by
  have hk : kvs.isEmpty = false := by
    cases kvs with
    | nil => exact absurd rfl hne
    | cons a t => rfl
  have ht : truthy (JsonVal.jobj kvs) = true := by simp [truthy, hk]
  have hp := pipeline_tier1 s.data _ h ht
  unfold parseResponse parseResponseL
  rw [hp]
  simp [usableKvs, ht]

theorem kvsGet_project_cm (kvs : List (String × JsonVal)) :
    kvsGet (projectResult kvs) "conversationMessage" =
      some ((kvsGet kvs "conversationMessage").getD (JsonVal.jstr "")) := by
  simp [projectResult, kvsGet]

theorem kvsGet_project_du (kvs : List (String × JsonVal)) :
    kvsGet (projectResult kvs) "documentUpdate" =
      (match kvsGet kvs "documentUpdate" with
       | some v => if truthy v then some v else none
       | none => none) := by
  unfold projectResult
  cases hdu : kvsGet kvs "documentUpdate" with
  | none =>
    cases hur : kvsGet kvs "updateRange" with
    | none => simp [kvsGet]
    | some w =>
      by_cases htw : truthy w <;> simp [kvsGet, htw]
  | some v =>
    by_cases htv : truthy v <;>
      cases hur : kvsGet kvs "updateRange" with
      | none => simp [kvsGet, htv]
      | some w => by_cases htw : truthy w <;> simp [kvsGet, htv, htw]

theorem kvsGet_project_ur (kvs : List (String × JsonVal)) :
    kvsGet (projectResult kvs) "updateRange" =
      (match kvsGet kvs "updateRange" with
       | some v => if truthy v then some v else none
       | none => none) := by
  unfold projectResult
  cases hdu : kvsGet kvs "documentUpdate" with
  | none =>
    cases hur : kvsGet kvs "updateRange" with
    | none => simp [kvsGet]
    | some w =>
      by_cases htw : truthy w <;> simp [kvsGet, htw]
  | some v =>
    by_cases htv : truthy v <;>
      cases hur : kvsGet kvs "updateRange" with
      | none => simp [kvsGet, htv]
      | some w => by_cases htw : truthy w <;> simp [kvsGet, htv, htw]

/-! ## Claim theorems: the response decoder -/

/-- C1: the decoder is total — in this embedding `parseResponse` is a total
Lean function (no exception channel exists), and for every input string,
including the empty string, malformed JSON, plain prose and valid JSON,
the returned EditResult mapping contains the key `conversationMessage`. -/
theorem c1_decoder_total (s : String) :
    ∃ v, kvsGet (parseResponse s) "conversationMessage" = some v := by
  unfold parseResponse parseResponseL
  cases h : usableKvs (pipeline s.data) with
  | none => exact ⟨_, rfl⟩
  | some kvs => exact ⟨_, kvsGet_project_cm kvs⟩

/-- C2 counterexample: a backend JSON object carrying `updateRange` but no
`documentUpdate` decodes to a result that contains `updateRange` on its
own, contradicting the claim that `updateRange` is present only alongside
a non-empty `documentUpdate`. -/
theorem c2_counterexample :
    kvsGet (parseResponse "\x7b\"conversationMessage\":\"x\",\"updateRange\":\"0:5\"\x7d")
        "updateRange" = some (JsonVal.jstr "0:5") ∧
    kvsGet (parseResponse "\x7b\"conversationMessage\":\"x\",\"updateRange\":\"0:5\"\x7d")
        "documentUpdate" = none := ⟨rfl, rfl⟩

/-- C2 amended: for every raw text whose trimmed content parses as a
non-empty JSON object, the result contains `updateRange` iff the key
exists with a truthy value — independently of `documentUpdate`. -/
theorem c2_updateRange_independent (s : String) (kvs : List (String × JsonVal))
    (h : jsonLoadsL (pyStrip s.data) = some (JsonVal.jobj kvs)) (hne : kvs ≠ []) :
    kvsGet (parseResponse s) "updateRange" =
      (match kvsGet kvs "updateRange" with
       | some v => if truthy v then some v else none
       | none => none) := by
  rw [parseResponse_obj s kvs h hne]
  exact kvsGet_project_ur kvs

/-- C2 witness: the amended rule evaluated on the counterexample input,
and on a float `updateRange` that underflows to `0.0` (falsy, so the key
is excluded, as in the program). -/
theorem c2_witness :
    kvsGet (parseResponse "\x7b\"conversationMessage\":\"x\",\"updateRange\":\"0:5\"\x7d")
        "updateRange" = some (JsonVal.jstr "0:5") ∧
    kvsGet (parseResponse "\x7b\"conversationMessage\":\"x\",\"updateRange\":1e-400\x7d")
        "updateRange" = none := by
  constructor
  · rw [c2_updateRange_independent "\x7b\"conversationMessage\":\"x\",\"updateRange\":\"0:5\"\x7d"
      [("conversationMessage", JsonVal.jstr "x"), ("updateRange", JsonVal.jstr "0:5")]
      rfl (by simp)]
    rfl
  · rw [c2_updateRange_independent "\x7b\"conversationMessage\":\"x\",\"updateRange\":1e-400\x7d"
      [("conversationMessage", JsonVal.jstr "x"), ("updateRange", JsonVal.jfloat "1e-400")]
      rfl (by simp)]
    rfl

/-- C3 counterexample: the input `"{}"` parses as a JSON object, but the
empty dict is falsy in Python, so the guard at line 287 rejects it and
the raw-text fallback yields `conversationMessage = "{}"`, not the empty
string the claim requires. -/
theorem c3_counterexample :
    kvsGet (parseResponse "\x7b\x7d") "conversationMessage" =
      some (JsonVal.jstr "\x7b\x7d") ∧
    ¬ ("\x7b\x7d" : String) = "" := ⟨rfl, by decide⟩

/-- C3 amended: for every input whose trimmed content parses as a
non-empty JSON object, the decoded `conversationMessage` equals the
object's value at that key, defaulting to the empty string when the key
is absent; an input parsing to the empty object instead falls through to
the raw-text fallback. -/
theorem c3_conversationMessage_rule (s : String) (kvs : List (String × JsonVal))
    (h : jsonLoadsL (pyStrip s.data) = some (JsonVal.jobj kvs)) (hne : kvs ≠ []) :
    kvsGet (parseResponse s) "conversationMessage" =
      some ((kvsGet kvs "conversationMessage").getD (JsonVal.jstr "")) := by
  rw [parseResponse_obj s kvs h hne]
  exact kvsGet_project_cm kvs

/-- C3 witness: a non-empty object without `conversationMessage` decodes
to the empty-string default. -/
theorem c3_witness :
    kvsGet (parseResponse "\x7b\"a\":1\x7d") "conversationMessage" =
      some (JsonVal.jstr "") := by
  rw [c3_conversationMessage_rule "\x7b\"a\":1\x7d" [("a", JsonVal.jnum 1)] rfl (by simp)]
  rfl

/-- C4 counterexample: a truthy non-string `documentUpdate` (the number 1)
is also passed through, so the rule is value truthiness, not "non-empty
string". -/
theorem c4_counterexample :
    kvsGet (parseResponse "\x7b\"conversationMessage\":\"ok\",\"documentUpdate\":1\x7d")
        "documentUpdate" = some (JsonVal.jnum 1) ∧
    isStr (JsonVal.jnum 1) = false := ⟨rfl, rfl⟩

/-- C4 amended: for every parsed non-empty mapping, the result contains
`documentUpdate` iff the key exists and its value is truthy (for strings:
non-empty), and the identical rule holds for `updateRange`; a truthy
non-string value is passed through unchanged. -/
theorem c4_truthy_rule (s : String) (kvs : List (String × JsonVal))
    (h : jsonLoadsL (pyStrip s.data) = some (JsonVal.jobj kvs)) (hne : kvs ≠ []) :
    kvsGet (parseResponse s) "documentUpdate" =
      (match kvsGet kvs "documentUpdate" with
       | some v => if truthy v then some v else none
       | none => none) ∧
    kvsGet (parseResponse s) "updateRange" =
      (match kvsGet kvs "updateRange" with
       | some v => if truthy v then some v else none
       | none => none) := by
  rw [parseResponse_obj s kvs h hne]
  exact ⟨kvsGet_project_du kvs, kvsGet_project_ur kvs⟩

/-- C4 witness: the spec's example — an explicit empty-string
`documentUpdate` is decoded identically to an absent key — and a float
`documentUpdate` of `1e-400`, which underflows to falsy `0.0` and is
likewise excluded. -/
theorem c4_witness :
    kvsGet (parseResponse "\x7b\"conversationMessage\":\"ok\",\"documentUpdate\":\"\"\x7d")
        "documentUpdate" = none ∧
    kvsGet (parseResponse "\x7b\"conversationMessage\":\"ok\",\"documentUpdate\":1e-400\x7d")
        "documentUpdate" = none := by
  constructor
  · have h := c4_truthy_rule "\x7b\"conversationMessage\":\"ok\",\"documentUpdate\":\"\"\x7d"
      [("conversationMessage", JsonVal.jstr "ok"), ("documentUpdate", JsonVal.jstr "")]
      rfl (by simp)
    rw [h.1]
    rfl
  · have h := c4_truthy_rule "\x7b\"conversationMessage\":\"ok\",\"documentUpdate\":1e-400\x7d"
      [("conversationMessage", JsonVal.jstr "ok"), ("documentUpdate", JsonVal.jfloat "1e-400")]
      rfl (by simp)
    rw [h.1]
    rfl

/-- C5: round-trip — decoding the JSON serialization of
`{"conversationMessage": m, "documentUpdate": u, "updateRange": r}` for
non-empty strings `m`, `u`, `r` yields an EditResult with all three
fields present and equal to the inputs. -/
theorem c5_round_trip (m u r : String) (hm : ¬ m.data = []) (hu : ¬ u.data = [])
    (hr : ¬ r.data = []) :
    parseResponse (serializeEdit m u r) =
      [("conversationMessage", JsonVal.jstr m), ("documentUpdate", JsonVal.jstr u),
       ("updateRange", JsonVal.jstr r)] := by
  show parseResponseL (serializeEditL m.data u.data r.data) = _
  have hload : jsonLoadsL (pyStrip (serializeEditL m.data u.data r.data)) =
      some (JsonVal.jobj [("conversationMessage", JsonVal.jstr m),
        ("documentUpdate", JsonVal.jstr u), ("updateRange", JsonVal.jstr r)]) := by
    rw [pyStrip_serialize]
    exact jsonLoadsL_serialize m.data u.data r.data
  have ht : truthy (JsonVal.jobj [("conversationMessage", JsonVal.jstr m),
      ("documentUpdate", JsonVal.jstr u), ("updateRange", JsonVal.jstr r)]) = true := rfl
  have hp := pipeline_tier1 (serializeEditL m.data u.data r.data) _ hload ht
  unfold parseResponseL
  rw [hp]
  show projectResult [("conversationMessage", JsonVal.jstr m),
      ("documentUpdate", JsonVal.jstr u), ("updateRange", JsonVal.jstr r)] = _
  have hju : truthy (JsonVal.jstr u) = true := by
    cases h2 : u.data with
    | nil => exact absurd h2 hu
    | cons a t => simp [truthy, h2]
  have hjr : truthy (JsonVal.jstr r) = true := by
    cases h2 : r.data with
    | nil => exact absurd h2 hr
    | cons a t => simp [truthy, h2]
  simp [projectResult, kvsGet, hju, hjr]

/-- C5 witness: the spec's concrete round-trip instance. -/
theorem c5_witness :
    parseResponse (serializeEdit "hi" "new text" "0:5") =
      [("conversationMessage", JsonVal.jstr "hi"),
       ("documentUpdate", JsonVal.jstr "new text"),
       ("updateRange", JsonVal.jstr "0:5")] :=
  c5_round_trip "hi" "new text" "0:5" (by decide) (by decide) (by decide)

/-- C6: when the three-tier extraction leaves no usable parsed object
(the guard of line 287 fails), the result is exactly
`{"conversationMessage": rawText.strip() or <fixed error sentence>}`. -/
theorem c6_fallback (s : String) (h : usableKvs (pipeline s.data) = none) :
    parseResponse s =
      [("conversationMessage",
        JsonVal.jstr (if (pyStrip s.data).isEmpty then errFallback
          else String.mk (pyStrip s.data)))] := by
  unfold parseResponse parseResponseL
  rw [h]

/-- C6 witness: plain prose is passed through as the conversational
message. -/
theorem c6_witness :
    parseResponse "not json at all" =
      [("conversationMessage", JsonVal.jstr "not json at all")] :=
  c6_fallback "not json at all" rfl

/-! ## Formatter lemmas -/

theorem inOrder_prepend (u t : List Char) (ms : List (List Char)) (h : inOrder t ms) :
    inOrder (u ++ t) ms := by
  cases ms with
  | nil => trivial
  | cons m ms2 =>
    obtain ⟨pre, post, he, hrest⟩ := h
    exact ⟨u ++ pre, post, by rw [he]; simp [List.append_assoc], hrest⟩

theorem sjoin_two (x y : List Char) (xs : List (List Char)) :
    sjoin (x :: y :: xs) = x ++ '\n' :: sjoin (y :: xs) := rfl

theorem sublist_inOrder (ms parts : List (List Char)) (h : List.Sublist ms parts) :
    inOrder (sjoin parts) ms := by
  induction h with
  | slnil => trivial
  | @cons l1 l2 a hsub ih =>
    cases l2 with
    | nil =>
      have he : l1 = [] := List.sublist_nil.mp hsub
      subst he
      trivial
    | cons b t =>
      rw [sjoin_two]
      have h2 := inOrder_prepend (a ++ ['\n']) (sjoin (b :: t)) l1 ih
      simpa [List.append_assoc] using h2
  | @cons₂ l1 l2 a hsub ih =>
    cases l2 with
    | nil =>
      have he : l1 = [] := List.sublist_nil.mp hsub
      subst he
      exact ⟨[], [], by simp [sjoin], trivial⟩
    | cons b t =>
      refine ⟨[], '\n' :: sjoin (b :: t), by rw [sjoin_two]; simp, ?_⟩
      exact inOrder_prepend ['\n'] (sjoin (b :: t)) l1 ih

theorem mem_sjoin (x : List Char) (parts : List (List Char)) (h : x ∈ parts) :
    ∃ pre post, sjoin parts = pre ++ x ++ post := by
  induction parts with
  | nil => cases h
  | cons p rest ih =>
    cases h with
    | head =>
      cases rest with
      | nil => exact ⟨[], [], by simp [sjoin]⟩
      | cons b t => exact ⟨[], '\n' :: sjoin (b :: t), by rw [sjoin_two]; simp⟩
    | tail _ hmem =>
      obtain ⟨pre, post, he⟩ := ih hmem
      cases rest with
      | nil => cases hmem
      | cons b t =>
        exact ⟨p ++ '\n' :: pre, post, by rw [sjoin_two, he]; simp [List.append_assoc]⟩

theorem histLinesFrom_get (k : Nat) (ms : List HistMsg) (i : Nat) (m : HistMsg)
    (h : ms.get? i = some m) :
    (histLinesFrom k ms).get? i = some (histLineL (k + i + 1) m) := by
  induction ms generalizing k i with
  | nil => simp at h
  | cons a t ih =>
    cases i with
    | zero =>
      simp only [List.get?] at h
      injection h with h
      subst h
      rfl
    | succ j =>
      simp only [List.get?] at h
      have hg := ih (k + 1) j h
      have e : k + 1 + j + 1 = k + (j + 1) + 1 := by omega
      rw [e] at hg
      exact hg

/-! ## Claim theorems: formatter, cleanup, context defaults -/

/-- C7: formatting through `process` is total (the embedding has no error
channel: every optional context field is defaulted before the formatter
reads it) and the produced prompt contains the six section markers in the
fixed order SYSTEM INSTRUCTIONS, DOCUMENT CONTENT, REFERRED TEXT,
CONVERSATION HISTORY, USER REQUEST, YOUR RESPONSE, for every context with
any subset of optional fields omitted. -/
theorem c7_markers (instr prompt : String) (c : EditingContext) :
    inOrder (process instr prompt c).1.data
      ["=== SYSTEM INSTRUCTIONS ===".data, "=== DOCUMENT CONTENT ===".data,
       "=== REFERRED TEXT ===".data, "=== CONVERSATION HISTORY ===".data,
       "=== USER REQUEST ===".data, "=== YOUR RESPONSE ===".data] := by
  show inOrder (sjoin (promptPartsL prompt (asFull (setdefaults instr c)))) _
  apply sublist_inOrder
  unfold promptPartsL
  simp only [List.cons_append, List.nil_append, List.append_assoc]
  apply List.Sublist.cons₂
  apply List.Sublist.cons
  apply List.Sublist.cons
  apply List.Sublist.cons₂
  apply List.sublist_append_of_sublist_right
  apply List.Sublist.cons
  apply List.Sublist.cons₂
  apply List.Sublist.cons
  apply List.sublist_append_of_sublist_right
  apply List.Sublist.cons
  apply List.Sublist.cons₂
  apply List.sublist_append_of_sublist_right
  apply List.Sublist.cons
  apply List.Sublist.cons₂
  apply List.Sublist.cons
  apply List.Sublist.cons
  apply List.Sublist.cons₂
  exact List.nil_sublist _

/-- C8: every history entry appears in the formatted prompt as its
rendered line, and that line carries the first 100 characters of the
content followed by an ellipsis when the content exceeds 100 characters,
or the whole content verbatim (no ellipsis) otherwise. -/
theorem c8_history_truncation (instr prompt : String) (c : EditingContext) (i : Nat)
    (m : HistMsg)
    (h : ((asFull (setdefaults instr c)).conversationHistory).get? i = some m) :
    (∃ pre post, (process instr prompt c).1.data =
      pre ++ histLineL (i + 1) m ++ post) ∧
    (100 < (m.content.getD "").data.length →
      histLineL (i + 1) m =
        histHead (i + 1) m ++ ((m.content.getD "").data.take 100 ++ ['.', '.', '.'])) ∧
    ((m.content.getD "").data.length ≤ 100 →
      histLineL (i + 1) m = histHead (i + 1) m ++ (m.content.getD "").data) := by
  refine ⟨?_, ?_, ?_⟩
  · show ∃ pre post, sjoin (promptPartsL prompt (asFull (setdefaults instr c))) =
      pre ++ histLineL (i + 1) m ++ post
    apply mem_sjoin
    have hne : (asFull (setdefaults instr c)).conversationHistory.isEmpty = false := by
      cases hh : (asFull (setdefaults instr c)).conversationHistory with
      | nil => rw [hh] at h; simp at h
      | cons a t => rfl
    have hmem : histLineL (i + 1) m ∈
        histLinesFrom 0 (asFull (setdefaults instr c)).conversationHistory := by
      have hg := histLinesFrom_get 0 _ i m h
      have e : 0 + i + 1 = i + 1 := by omega
      rw [e] at hg
      exact List.get?_mem hg
    unfold promptPartsL
    simp only [hne, Bool.false_eq_true, if_false, List.mem_append, List.mem_cons]
    tauto
  · intro hlong
    have hl2 : 100 < (m.content.getD "").length := hlong
    simp [histLineL, hlong, hl2]
  · intro hshort
    have h2 : ¬ (100 < (m.content.getD "").data.length) := by omega
    have h3 : ¬ (100 < (m.content.getD "").length) := h2
    simp [histLineL, h2, h3, List.take_of_length_le hshort]

/-- C8 witness: a concrete 101-character entry is truncated with an
ellipsis, and the rendered line occurs in the prompt. -/
theorem c8_witness :
    (∃ pre post, (process "I" "p" witCtx).1.data =
      pre ++ histLineL 1 witMsg ++ post) ∧
    (100 < (witMsg.content.getD "").data.length →
      histLineL 1 witMsg =
        histHead 1 witMsg ++ ((witMsg.content.getD "").data.take 100 ++ ['.', '.', '.'])) ∧
    ((witMsg.content.getD "").data.length ≤ 100 →
      histLineL 1 witMsg = histHead 1 witMsg ++ (witMsg.content.getD "").data) :=
  c8_history_truncation "I" "p" witCtx 0 witMsg rfl

/-- C9 counterexample: starting connected with a first `disconnect` that
raises (caught internally, flag kept `true`) and a second that succeeds,
the second cleanup changes `_connected` from `true` to `false` — the
second call does not leave the flag as the first call left it. -/
theorem c9_counterexample :
    cleanup true true = (true, false) ∧
    cleanup (cleanup true true).1 false = (false, false) := ⟨rfl, rfl⟩

/-- C9 amended: cleanup never lets an exception escape to the caller;
calling it when already disconnected is a no-op; and when the underlying
disconnect behaves the same across both calls (in particular whenever it
does not raise), a second cleanup leaves `_connected` exactly as the
first call left it. -/
theorem c9_cleanup_idempotent (s b : Bool) :
    (cleanup s b).2 = false ∧
    cleanup (cleanup s b).1 b = cleanup s b ∧
    cleanup false b = (false, false) := by
  cases s <;> cases b <;> exact ⟨rfl, rfl, rfl⟩

/-- C10: `process` fills the caller-supplied context in place: each of the
five optional keys missing from the caller's mapping is inserted with its
default (`""`, `""`, `"0:0"`, `[]`, the loaded instructions), and keys
already present keep their original values.  The mapping returned as the
second component is the caller's mapping as the call leaves it. -/
theorem c10_process_defaults (instr prompt : String) (c : EditingContext) :
    (c.documentContent = none → ((process instr prompt c).2).documentContent = some "") ∧
    (∀ v, c.documentContent = some v → ((process instr prompt c).2).documentContent = some v) ∧
    (c.referredText = none → ((process instr prompt c).2).referredText = some "") ∧
    (∀ v, c.referredText = some v → ((process instr prompt c).2).referredText = some v) ∧
    (c.referredAddress = none → ((process instr prompt c).2).referredAddress = some "0:0") ∧
    (∀ v, c.referredAddress = some v → ((process instr prompt c).2).referredAddress = some v) ∧
    (c.conversationHistory = none → ((process instr prompt c).2).conversationHistory = some []) ∧
    (∀ v, c.conversationHistory = some v → ((process instr prompt c).2).conversationHistory = some v) ∧
    (c.systemInstructions = none → ((process instr prompt c).2).systemInstructions = some instr) ∧
    (∀ v, c.systemInstructions = some v → ((process instr prompt c).2).systemInstructions = some v) := by
  refine ⟨fun h => by simp [process, setdefaults, h],
    fun v h => by simp [process, setdefaults, h],
    fun h => by simp [process, setdefaults, h],
    fun v h => by simp [process, setdefaults, h],
    fun h => by simp [process, setdefaults, h],
    fun v h => by simp [process, setdefaults, h],
    fun h => by simp [process, setdefaults, h],
    fun v h => by simp [process, setdefaults, h],
    fun h => by simp [process, setdefaults, h],
    fun v h => by simp [process, setdefaults, h]⟩

/-- C10 witness: a context missing `documentContent`, `referredAddress`,
`systemInstructions` but carrying `referredText` and an empty history gets
exactly the defaults inserted and keeps the present values. -/
theorem c10_witness :
    ((process "I" "p" ⟨none, some "keep", none, some [], none⟩).2).documentContent = some "" ∧
    ((process "I" "p" ⟨none, some "keep", none, some [], none⟩).2).referredText = some "keep" ∧
    ((process "I" "p" ⟨none, some "keep", none, some [], none⟩).2).referredAddress = some "0:0" ∧
    ((process "I" "p" ⟨none, some "keep", none, some [], none⟩).2).conversationHistory = some [] ∧
    ((process "I" "p" ⟨none, some "keep", none, some [], none⟩).2).systemInstructions = some "I" := by
  have h := c10_process_defaults "I" "p" ⟨none, some "keep", none, some [], none⟩
  exact ⟨h.1 rfl, h.2.2.2.1 "keep" rfl, h.2.2.2.2.1 rfl,
    h.2.2.2.2.2.2.2.1 [] rfl, h.2.2.2.2.2.2.2.2.1 rfl⟩

end Agent
